import Mathlib

/-!
Verification development for the Database-Agent repository.

The definitions below are a shallow embedding, translated from the Python
source:
  * `src/agent/simple_approval.py`  — the approval ledger (`SimpleApprovalManager`),
  * `src/agent/main_agent.py`      — the approval-gated conversation workflow
    (`_human_approval`, `_handle_human_decision`, the `__APPROVED__` /
    `__DENIED__` sentinel branch of `DatabaseAgent.chat`),
  * `src/main.py`                  — the cancellable streaming delivery
    (`generate_stream`, `stop_generation`).

Machine conventions of the embedding:
  * `datetime.now()` is modelled by an explicit `now : Nat` argument; the
    iso-timestamp strings of the Python dicts are kept as `Nat` time-points,
    so the `ValueError` branch of `_is_expired` (unparsable timestamp) is
    unreachable in the model.
  * `uuid.uuid4()` (collision-free fresh ids) is modelled by a `next_id`
    counter; ids are `Nat`.
  * The `pending_approvals` dict is an insertion-ordered association list
    (Python dicts preserve insertion order).
  * Python `re` matching for the concrete anchored patterns of the source is
    implemented by the small fuel-indexed backtracking engine `pmatchF`; the
    fuel passed by the wrappers strictly dominates the recursion depth, and
    negative results about the engine are proved for every fuel, so no
    theorem depends on the fuel bound being tight.
  * `re.IGNORECASE` is modelled with `Char.toLower` on both sides, and `\s`,
    `\w` with the ASCII classes below (the source is only ever run on ASCII
    SQL text).
-/

/-! ## Character classes and Python string helpers -/

/-- Python `\s` (ASCII): space, tab, newline, carriage return,
vertical tab, form feed. -/
def isPySpace (c : Char) : Bool :=
  c = ' ' || c = '\t' || c = '\n' || c = '\r' || c = '\x0B' || c = '\x0C'

/-- Python `\w` (ASCII): letters, digits and underscore. -/
def isWordChar (c : Char) : Bool :=
  c.isAlphanum || c = '_'

/-- Python `str.strip()`: drop leading and trailing whitespace. -/
def pystrip (l : List Char) : List Char :=
  ((l.dropWhile isPySpace).reverse.dropWhile isPySpace).reverse

/-- Helper for `pySplit`: the accumulator holds the current word reversed. -/
def pySplitAux : List Char → List Char → List (List Char)
  | [], acc => if acc.isEmpty then [] else [acc.reverse]
  | c :: cs, acc =>
      if isPySpace c then
        if acc.isEmpty then pySplitAux cs [] else acc.reverse :: pySplitAux cs []
      else pySplitAux cs (c :: acc)

/-- Python `str.split()` with no argument: split on whitespace runs,
dropping empty pieces. -/
def pySplit (s : String) : List String :=
  (pySplitAux s.data []).map String.mk

/-- `needle in hay` on strings (used by the response-classification checks
in `src/main.py`). -/
def isSubList (n : List Char) : List Char → Bool
  | [] => n.isEmpty
  | c :: h => n.isPrefixOf (c :: h) || isSubList n h

/-- Python `needle in hay` for strings. -/
def containsSub (needle hay : String) : Bool :=
  isSubList needle.data hay.data

/-! ## A tiny regex engine for the source's fixed patterns

The source compiles a fixed list of patterns built only from case-insensitive
literals, `\s+`, `\s*`, `.*`, the optional group `(?:IF\s+EXISTS\s+)?` and a
final capture `(\w+)`.  `Pat` has one constructor per construct. -/

inductive Pat
  /-- one case-insensitive literal character -/
  | lit (c : Char)
  /-- `\s+` -/
  | wsPlus
  /-- `\s*` -/
  | wsStar
  /-- `.*` (does not match a newline: `re.DOTALL` is not set on these) -/
  | dotStar
  /-- `(?:IF\s+EXISTS\s+)?` -/
  | ifExistsOpt
  /-- `(\w+)` — the single capture group, last element of every pattern using it -/
  | wordCap
deriving DecidableEq, Repr

/-- Expansion of the optional group `(?:IF\s+EXISTS\s+)?`. -/
def ifExistsSeq : List Pat :=
  [.lit 'I', .lit 'F', .wsPlus, .lit 'E', .lit 'X', .lit 'I', .lit 'S',
   .lit 'T', .lit 'S', .wsPlus]

/-- Fuel-indexed backtracking matcher, anchored at the start of the input
(Python `re.match`); a pattern need not consume the whole input.  Returns
`some w` on a match, where `w` is the text of the `wordCap` capture (or `[]`
when the pattern has no capture).  Alternatives are ordered greedily, as in
Python (`consume first`, optional group present first). -/
def pmatchF : Nat → List Pat → List Char → Option (List Char)
  | 0, _, _ => none
  | _+1, [], _ => some []
  | _+1, .lit _ :: _, [] => none
  | f+1, .lit c :: ps, d :: cs =>
      if d.toLower = c.toLower then pmatchF f ps cs else none
  | _+1, .wsPlus :: _, [] => none
  | f+1, .wsPlus :: ps, d :: cs =>
      if isPySpace d then pmatchF f (.wsStar :: ps) cs else none
  | f+1, .wsStar :: ps, [] => pmatchF f ps []
  | f+1, .wsStar :: ps, d :: cs =>
      if isPySpace d then
        (pmatchF f (Pat.wsStar :: ps) cs).orElse (fun _ => pmatchF f ps (d :: cs))
      else pmatchF f ps (d :: cs)
  | f+1, .dotStar :: ps, [] => pmatchF f ps []
  | f+1, .dotStar :: ps, d :: cs =>
      if d = '\n' then pmatchF f ps (d :: cs)
      else (pmatchF f (Pat.dotStar :: ps) cs).orElse (fun _ => pmatchF f ps (d :: cs))
  | f+1, .ifExistsOpt :: ps, cs =>
      (pmatchF f (ifExistsSeq ++ ps) cs).orElse (fun _ => pmatchF f ps cs)
  | f+1, .wordCap :: ps, cs =>
      let w := cs.takeWhile isWordChar
      if w.isEmpty then none
      else
        match pmatchF f ps (cs.drop w.length) with
        | some _ => some w
        | none => none

/-- Size of one pattern element, an upper bound on the pattern-side recursion
budget it can consume. -/
def patSize : Pat → Nat
  | .wsPlus => 2
  | .ifExistsOpt => 13
  | _ => 1

/-- Size of a pattern. -/
def patsSize (ps : List Pat) : Nat := (ps.map patSize).sum

/-- Python `re.match(pattern, input)`: every recursive step of `pmatchF`
either consumes an input character or decreases the pattern size, so
`patsSize ps + cs.length + 1` fuel always suffices. -/
def pmatch (ps : List Pat) (cs : List Char) : Option (List Char) :=
  pmatchF (patsSize ps + cs.length + 1) ps cs

/-- Python `re.search(pattern, input)`: try every start position, leftmost
first. -/
def psearch (ps : List Pat) : List Char → Option (List Char)
  | [] => pmatch ps []
  | d :: cs => (pmatch ps (d :: cs)).orElse (fun _ => psearch ps cs)

/-! ### The compiled patterns of `SimpleApprovalManager.__init__` -/

/-- `^\s*DROP\s+` -/
def dropPat : List Pat :=
  [.wsStar, .lit 'D', .lit 'R', .lit 'O', .lit 'P', .wsPlus]

/-- `^\s*DELETE\s+FROM\s+` -/
def deleteFromPat : List Pat :=
  [.wsStar, .lit 'D', .lit 'E', .lit 'L', .lit 'E', .lit 'T', .lit 'E', .wsPlus,
   .lit 'F', .lit 'R', .lit 'O', .lit 'M', .wsPlus]

/-- `^\s*ALTER\s+TABLE\s+` -/
def alterTablePat : List Pat :=
  [.wsStar, .lit 'A', .lit 'L', .lit 'T', .lit 'E', .lit 'R', .wsPlus,
   .lit 'T', .lit 'A', .lit 'B', .lit 'L', .lit 'E', .wsPlus]

/-- `^\s*TRUNCATE\s+TABLE\s+` -/
def truncateTablePat : List Pat :=
  [.wsStar, .lit 'T', .lit 'R', .lit 'U', .lit 'N', .lit 'C', .lit 'A',
   .lit 'T', .lit 'E', .wsPlus, .lit 'T', .lit 'A', .lit 'B', .lit 'L',
   .lit 'E', .wsPlus]

/-- `^\s*UPDATE\s+.*\s+SET\s+.*\s+WHERE\s+1\s*=\s*1` (mass updates) -/
def massUpdatePat : List Pat :=
  [.wsStar, .lit 'U', .lit 'P', .lit 'D', .lit 'A', .lit 'T', .lit 'E', .wsPlus,
   .dotStar, .wsPlus, .lit 'S', .lit 'E', .lit 'T', .wsPlus,
   .dotStar, .wsPlus, .lit 'W', .lit 'H', .lit 'E', .lit 'R', .lit 'E', .wsPlus,
   .lit '1', .wsStar, .lit '=', .wsStar, .lit '1']

/-- `self.dangerous_patterns`, in source order. -/
def dangerous_patterns : List (List Pat) :=
  [dropPat, deleteFromPat, alterTablePat, truncateTablePat, massUpdatePat]

/-- `^\s*SELECT\s+` -/
def selectPat : List Pat :=
  [.wsStar, .lit 'S', .lit 'E', .lit 'L', .lit 'E', .lit 'C', .lit 'T', .wsPlus]

/-- `^\s*INSERT\s+INTO\s+` -/
def insertIntoPat : List Pat :=
  [.wsStar, .lit 'I', .lit 'N', .lit 'S', .lit 'E', .lit 'R', .lit 'T', .wsPlus,
   .lit 'I', .lit 'N', .lit 'T', .lit 'O', .wsPlus]

/-- `^\s*CREATE\s+TABLE\s+` -/
def createTablePat : List Pat :=
  [.wsStar, .lit 'C', .lit 'R', .lit 'E', .lit 'A', .lit 'T', .lit 'E', .wsPlus,
   .lit 'T', .lit 'A', .lit 'B', .lit 'L', .lit 'E', .wsPlus]

/-- `^\s*SHOW\s+` -/
def showPat : List Pat :=
  [.wsStar, .lit 'S', .lit 'H', .lit 'O', .lit 'W', .wsPlus]

/-- `^\s*DESCRIBE\s+` -/
def describePat : List Pat :=
  [.wsStar, .lit 'D', .lit 'E', .lit 'S', .lit 'C', .lit 'R', .lit 'I',
   .lit 'B', .lit 'E', .wsPlus]

/-- `self.safe_patterns`, in source order. -/
def safe_patterns : List (List Pat) :=
  [selectPat, insertIntoPat, createTablePat, showPat, describePat]

/-! ### The table-name extraction patterns of `_extract_table_name` -/

/-- `DROP\s+TABLE\s+(?:IF\s+EXISTS\s+)?(\w+)` -/
def dropExtractPat : List Pat :=
  [.lit 'D', .lit 'R', .lit 'O', .lit 'P', .wsPlus,
   .lit 'T', .lit 'A', .lit 'B', .lit 'L', .lit 'E', .wsPlus,
   .ifExistsOpt, .wordCap]

/-- `DELETE\s+FROM\s+(\w+)` -/
def deleteExtractPat : List Pat :=
  [.lit 'D', .lit 'E', .lit 'L', .lit 'E', .lit 'T', .lit 'E', .wsPlus,
   .lit 'F', .lit 'R', .lit 'O', .lit 'M', .wsPlus, .wordCap]

/-- `ALTER\s+TABLE\s+(\w+)` -/
def alterExtractPat : List Pat :=
  [.lit 'A', .lit 'L', .lit 'T', .lit 'E', .lit 'R', .wsPlus,
   .lit 'T', .lit 'A', .lit 'B', .lit 'L', .lit 'E', .wsPlus, .wordCap]

/-- `TRUNCATE\s+TABLE\s+(\w+)` -/
def truncateExtractPat : List Pat :=
  [.lit 'T', .lit 'R', .lit 'U', .lit 'N', .lit 'C', .lit 'A', .lit 'T',
   .lit 'E', .wsPlus, .lit 'T', .lit 'A', .lit 'B', .lit 'L', .lit 'E',
   .wsPlus, .wordCap]

/-- `UPDATE\s+(\w+)` -/
def updateExtractPat : List Pat :=
  [.lit 'U', .lit 'P', .lit 'D', .lit 'A', .lit 'T', .lit 'E', .wsPlus, .wordCap]

/-! ## `src/agent/simple_approval.py` — the approval ledger -/

/-- `ApprovalStatus` enum. -/
inductive ApprovalStatus
  | pending
  | approved
  | denied
  | expired
deriving DecidableEq, Repr

/-- `ApprovalStatus.<X>.value` — the strings stored in the dicts. -/
def statusValue : ApprovalStatus → String
  | .pending => "pending"
  | .approved => "approved"
  | .denied => "denied"
  | .expired => "expired"

/-- One approval-request dict of `pending_approvals` (the `id` key is the
association-list key). -/
structure Approval where
  sql_query : String
  operation_type : String
  table_name : Option String
  description : String
  status : ApprovalStatus
  created_at : Nat
  expires_at : Nat
  approved_at : Option Nat
  denied_at : Option Nat
  approved_by : Option String
deriving DecidableEq, Repr

/-- The `SimpleApprovalManager` state: the `pending_approvals` dict as an
insertion-ordered association list, the configured timeout, and the
fresh-id counter standing in for `uuid4`. -/
structure Manager where
  pending_approvals : List (Nat × Approval)
  timeout_seconds : Nat
  next_id : Nat
deriving DecidableEq, Repr

/-- `SimpleApprovalManager(timeout_minutes=5)`: empty ledger, 300 s timeout. -/
def initManager : Manager :=
  { pending_approvals := [], timeout_seconds := 5 * 60, next_id := 0 }

/-- Dict lookup on the association list. -/
def alistLookup {α : Type} : List (Nat × α) → Nat → Option α
  | [], _ => none
  | p :: l, k => if p.1 = k then some p.2 else alistLookup l k

/-- Dict update (in-place mutation of the stored entry). -/
def alistSet {α : Type} : List (Nat × α) → Nat → α → List (Nat × α)
  | [], _, _ => []
  | p :: l, k, a => if p.1 = k then (k, a) :: alistSet l k a else p :: alistSet l k a

/-- `_is_expired`: `datetime.now() > expires_at`. -/
def is_expired (a : Approval) (now : Nat) : Bool :=
  decide (now > a.expires_at)

/-- `is_dangerous_operation`: empty / whitespace-only queries are safe; safe
patterns are checked before dangerous ones; both are `re.match` (anchored
prefix) checks. -/
def is_dangerous_operation (q : String) : Bool :=
  if q.data.isEmpty then false
  else if (pystrip q.data).isEmpty then false
  else if safe_patterns.any (fun p => (pmatch p q.data).isSome) then false
  else dangerous_patterns.any (fun p => (pmatch p q.data).isSome)

/-- `_extract_table_name`: `re.search` each extraction pattern in order and
return the first capture. -/
def extract_table_name (q : String) : Option String :=
  (([dropExtractPat, deleteExtractPat, alterExtractPat, truncateExtractPat,
     updateExtractPat].findSome? (fun p => psearch p q.data))).map
    (fun w => String.mk w)

/-- Result of `get_operation_info`. -/
structure OperationInfo where
  operation_type : String
  table_name : Option String
  description : String
deriving DecidableEq, Repr

/-- `sql_query.upper().strip()` (upper commutes with strip on whitespace). -/
def pyUpperStrip (s : String) : List Char :=
  (pystrip s.data).map Char.toUpper

/-- `get_operation_info`: classify by `startswith` on the upper-cased,
stripped query, then extract the table name best-effort. -/
def get_operation_info (q : String) : OperationInfo :=
  let u := pyUpperStrip q
  let op :=
    if ("DROP".data).isPrefixOf u then "DROP"
    else if ("DELETE".data).isPrefixOf u then "DELETE"
    else if ("ALTER".data).isPrefixOf u then "ALTER"
    else if ("TRUNCATE".data).isPrefixOf u then "TRUNCATE"
    else if ("UPDATE".data).isPrefixOf u then "UPDATE"
    else "UNKNOWN"
  let tn := extract_table_name q
  let descr := op ++ " operation" ++
    (match tn with
     | some t => " on table \x27" ++ t ++ "\x27"
     | none => "")
  { operation_type := op, table_name := tn, description := descr }

/-- Return value of `create_approval_request`
(`{approval_id, requires_approval, approval_request}` plus the updated
manager state). -/
structure CreateOut where
  approval_id : Nat
  approval_request : Approval
  manager : Manager
deriving DecidableEq, Repr

/-- `create_approval_request`: fresh id, PENDING status,
`expires_at = now + timeout_seconds`, inserted into the ledger. -/
def create_approval_request (m : Manager) (now : Nat) (sql : String) : CreateOut :=
  let info := get_operation_info sql
  let a : Approval :=
    { sql_query := sql
      operation_type := info.operation_type
      table_name := info.table_name
      description := info.description
      status := .pending
      created_at := now
      expires_at := now + m.timeout_seconds
      approved_at := none
      denied_at := none
      approved_by := none }
  { approval_id := m.next_id
    approval_request := a
    manager :=
      { m with
        pending_approvals := m.pending_approvals ++ [(m.next_id, a)]
        next_id := m.next_id + 1 } }

/-- Observable part of a `get_approval_status` reply: whether the id was
found (`found = false` is the `"error": "Approval request not found"` dict,
which carries no `status` key, hence `status = none`), the `status` field,
and `requires_approval`. -/
structure StatusView where
  found : Bool
  status : Option ApprovalStatus
  requires_approval : Bool
deriving DecidableEq, Repr

/-- `get_approval_status`: lazy expiry — if `now > expires_at` the stored
status is overwritten with EXPIRED (regardless of its current value) and
EXPIRED is reported; otherwise the stored status is reported unchanged. -/
def get_approval_status (m : Manager) (now : Nat) (aid : Nat) : StatusView × Manager :=
  match alistLookup m.pending_approvals aid with
  | none => ({ found := false, status := none, requires_approval := false }, m)
  | some a =>
      if is_expired a now then
        ({ found := true, status := some .expired, requires_approval := false },
         { m with pending_approvals :=
             alistSet m.pending_approvals aid { a with status := .expired } })
      else
        ({ found := true, status := some a.status,
           requires_approval := decide (a.status = .pending) }, m)

/-- Error string of the not-found branch of `approve_operation` /
`deny_operation`. -/
def notFoundMsg : String := "Approval request not found"

/-- Error string of the not-pending branch. -/
def notPendingMsg (cur : String) : String :=
  "Approval request is not pending (current status: " ++ cur ++ ")"

/-- Error string of the expired branch of `approve_operation`. -/
def expiredMsg : String := "Approval request has expired"

/-- Observable part of a decide reply. -/
structure DecideOut where
  success : Bool
  error : Option String
deriving DecidableEq, Repr

/-- `approve_operation`: not-found, then not-pending, then lazy-expiry (which
also overwrites the status with EXPIRED), then the APPROVED transition. -/
def approve_operation (m : Manager) (now : Nat) (aid : Nat) (approved_by : String) :
    DecideOut × Manager :=
  match alistLookup m.pending_approvals aid with
  | none => ({ success := false, error := some notFoundMsg }, m)
  | some a =>
      if a.status ≠ ApprovalStatus.pending then
        ({ success := false, error := some (notPendingMsg (statusValue a.status)) }, m)
      else if is_expired a now then
        ({ success := false, error := some expiredMsg },
         { m with pending_approvals :=
             alistSet m.pending_approvals aid { a with status := .expired } })
      else
        let a2 := { a with status := ApprovalStatus.approved,
                           approved_at := some now,
                           approved_by := some approved_by }
        ({ success := true, error := none },
         { m with pending_approvals := alistSet m.pending_approvals aid a2 })

/-- `deny_operation`: not-found, then not-pending, then the DENIED
transition.  Note: unlike `approve_operation` there is **no** expiry check,
and the denier is recorded under the `approved_by` key (both faithful to the
source). -/
def deny_operation (m : Manager) (now : Nat) (aid : Nat) (denied_by : String) :
    DecideOut × Manager :=
  match alistLookup m.pending_approvals aid with
  | none => ({ success := false, error := some notFoundMsg }, m)
  | some a =>
      if a.status ≠ ApprovalStatus.pending then
        ({ success := false, error := some (notPendingMsg (statusValue a.status)) }, m)
      else
        let a2 := { a with status := ApprovalStatus.denied,
                           denied_at := some now,
                           approved_by := some denied_by }
        ({ success := true, error := none },
         { m with pending_approvals := alistSet m.pending_approvals aid a2 })

/-- `get_pending_approvals`: expired entries are marked EXPIRED and then
deleted (the mark is unobservable after the delete, so the net effect is the
filter below); the returned list holds the non-expired entries whose status
is PENDING, in insertion order. -/
def get_pending_approvals (m : Manager) (now : Nat) : List Approval × Manager :=
  let keep := m.pending_approvals.filter (fun p => !(is_expired p.2 now))
  ((keep.filter (fun p => decide (p.2.status = .pending))).map (fun p => p.2),
   { m with pending_approvals := keep })

/-- `cleanup_expired_approvals`: delete every expired entry, return the
count removed. -/
def cleanup_expired_approvals (m : Manager) (now : Nat) : Nat × Manager :=
  ((m.pending_approvals.filter (fun p => is_expired p.2 now)).length,
   { m with pending_approvals :=
       m.pending_approvals.filter (fun p => !(is_expired p.2 now)) })

/-! ## `src/agent/main_agent.py` — the approval-gated workflow

Only the state fields and steps the gate uses are modelled; the LLM router,
SQL generation and the executor are the out-of-scope collaborators of the
spec (the executor's invocations are recorded explicitly). -/

/-- The `context` dict carried in `ConversationState`, restricted to the
keys read or written by the approval gate. -/
structure Ctx where
  operation_result : String
  sql_executed : Option String
  requires_approval : Bool
  approval_id : Option Nat
deriving DecidableEq, Repr

/-- The fields of the `ConversationState` TypedDict used by the gate
(`messages` and `next_action` are routing data the gate never reads). -/
structure ConvState where
  pending_query : Option String
  human_approval : Option Bool
  approval_pending : Option Bool
  approval_id : Option Nat
  context : Option Ctx
deriving DecidableEq, Repr

/-- `context.get("sql_executed", "")` as read by `_human_approval`. -/
def pendingQueryOf (st : ConvState) : String :=
  (st.context.bind (fun c => c.sql_executed)).getD ""

/-- The approval-request message `_human_approval` renders into the context
(f-string of lines 260-275 of `main_agent.py`). -/
def approval_message (operation_type : String) (table_name : Option String)
    (q : String) (aid : Nat) : String :=
  "\n⚠️ **DANGEROUS OPERATION DETECTED** ⚠️\n\n" ++
  "I need your approval to execute this potentially dangerous database operation:\n\n" ++
  "**Operation Type:** " ++ operation_type ++ "\n" ++
  "**Table:** " ++ (table_name.getD "Unknown") ++ "\n" ++
  "**SQL Query:**\n```sql\n" ++ q ++ "\n```\n\n" ++
  "This operation could modify or delete data in your database. " ++
  "Please review the query above and confirm your decision.\n\n" ++
  "**Approval ID:** " ++ toString aid ++ "\n"

/-- Result of the `_human_approval` node: the updated state, the updated
ledger, and whether an `ApprovalRequest` was created during this step. -/
structure NodeOut where
  st : ConvState
  manager : Manager
  created : Bool
deriving DecidableEq, Repr

/-- The `_human_approval` workflow node: no pending query → decision false;
pending query not dangerous → decision true; otherwise create an approval
request, store its id, render the approval message into the context and mark
the decision pending. -/
def human_approval_node (st : ConvState) (m : Manager) (now : Nat) : NodeOut :=
  let q := pendingQueryOf st
  if q.isEmpty then
    { st := { st with human_approval := some false }, manager := m, created := false }
  else if !(is_dangerous_operation q) then
    { st := { st with human_approval := some true }, manager := m, created := false }
  else
    let r := create_approval_request m now q
    let msg := approval_message r.approval_request.operation_type
      r.approval_request.table_name q r.approval_id
    { st :=
        { st with
          approval_id := some r.approval_id
          context := some
            { operation_result := msg
              sql_executed := some q
              requires_approval := true
              approval_id := some r.approval_id }
          human_approval := none
          approval_pending := some true }
      manager := r.manager
      created := true }

/-- The `_handle_human_decision` conditional edge: returns the route string
(`"database_operation"` or `"response"`), the updated state and the updated
ledger.  `approval_status.get("status", "")` yields `""` for the not-found
reply, which — like PENDING — falls into the final `else` that leaves the
state untouched. -/
def handle_human_decision (st : ConvState) (m : Manager) (now : Nat) :
    String × ConvState × Manager :=
  match st.approval_id with
  | none => ("response", { st with human_approval := some false }, m)
  | some aid =>
      let r := get_approval_status m now aid
      match r.1.status with
      | some ApprovalStatus.approved =>
          ("database_operation", { st with human_approval := some true }, r.2)
      | some ApprovalStatus.denied =>
          ("response", { st with human_approval := some false }, r.2)
      | some ApprovalStatus.expired =>
          ("response", { st with human_approval := some false }, r.2)
      | _ => ("response", st, r.2)

/-- Which reply the `__APPROVED__` / `__DENIED__` sentinel branch of
`DatabaseAgent.chat` returned (the full strings carry a `json.dumps` of the
executor result; only their identity matters to the workflow). -/
inductive ResumeReply
  /-- "✅ Successfully executed approved operation: ..." -/
  | executedOk (q : String)
  /-- "❌ Error executing approved operation: ..." -/
  | executedErr (q : String)
  /-- "❌ Operation cancelled by user. No changes were made to the database." -/
  | cancelled
  /-- "⚠️ No pending approval found." -/
  | noPending
deriving DecidableEq, Repr

/-- Observable result of one sentinel-resume call: the reply, the thread
state afterwards, the ledger afterwards, and the statements passed to the
executor (`execute_sql_query`) during the call. -/
structure ResumeOut where
  reply : ResumeReply
  st : ConvState
  manager : Manager
  executed : List String
deriving DecidableEq, Repr

/-- The body of the sentinel branch of `DatabaseAgent.chat`
(lines 1256-1285 of `main_agent.py`): read the thread's persisted state,
poll the ledger, and on APPROVED execute `context.sql_executed`.  The
branch returns without writing the thread state back (`update_state` is
never called), so `st` is returned unchanged in every case.  `exSuccess`
stands for the success flag of the opaque executor. -/
def chat_resume (st : ConvState) (m : Manager) (now : Nat) (exSuccess : Bool) :
    ResumeOut :=
  match st.approval_id with
  | none => { reply := .noPending, st := st, manager := m, executed := [] }
  | some aid =>
      let r := get_approval_status m now aid
      match r.1.status with
      | some ApprovalStatus.approved =>
          match st.context.bind (fun c => c.sql_executed) with
          | some q =>
              if q.isEmpty then
                { reply := .noPending, st := st, manager := r.2, executed := [] }
              else
                { reply := if exSuccess then .executedOk q else .executedErr q,
                  st := st, manager := r.2, executed := [q] }
          | none => { reply := .noPending, st := st, manager := r.2, executed := [] }
      | some ApprovalStatus.denied =>
          { reply := .cancelled, st := st, manager := r.2, executed := [] }
      | _ => { reply := .noPending, st := st, manager := r.2, executed := [] }

/-- `DatabaseAgent.chat` restricted to the sentinel inputs: `none` means the
input was not a sentinel and the call proceeds into the LangGraph workflow
(out of scope of the resume claims). -/
def chat_step (input : String) (st : ConvState) (m : Manager) (now : Nat)
    (exSuccess : Bool) : Option ResumeOut :=
  if input = "__APPROVED__" ∨ input = "__DENIED__" then
    some (chat_resume st m now exSuccess)
  else none

/-! ## `src/main.py` — cancellable streaming delivery and sessions -/

/-- One SSE chunk of `generate_stream`, by its `chunk_type`; a text chunk
carries the (up to two) words it delivers. -/
inductive Chunk
  | text (ws : List String)
  | stopped
  | humanApproval (s : String)
deriving DecidableEq, Repr

/-- Whether a chunk is an ordinary text chunk. -/
def Chunk.isText : Chunk → Bool
  | .text _ => true
  | _ => false

/-- Number of text chunks delivered. -/
def countText (l : List Chunk) : Nat := (l.filter Chunk.isText).length

/-- The word-pair delivery loop of `generate_stream`.  `flag k` is the value
of the shared check `session_id in active_sessions and is_active` at the
k-th read; the loop reads it immediately before and immediately after
emitting each chunk, and emits a final `stopped` chunk when a read comes
back false. -/
def streamLoop : List String → (Nat → Bool) → Nat → List Chunk
  | [], _, _ => []
  | [w], flag, k =>
      if !(flag k) then [.stopped]
      else if !(flag (k + 1)) then [.text [w], .stopped]
      else [.text [w]]
  | w1 :: w2 :: ws, flag, k =>
      if !(flag k) then [.stopped]
      else if !(flag (k + 1)) then [.text [w1, w2], .stopped]
      else .text [w1, w2] :: streamLoop ws flag (k + 2)

/-- The response-shape check of `generate_stream` that short-circuits
approval prompts past the streaming loop. -/
def approval_response_check (r : String) : Bool :=
  containsSub "DANGEROUS OPERATION DETECTED" r ||
  containsSub "⚠️" r ||
  containsSub "**Approval ID:**" r ||
  containsSub "Dangerous operation detected" r

/-- Observable outcome of one `generate_stream` run: the chunks yielded to
the caller and whether the session was removed from the registry (the
`finally` block always deletes it, on completion, stop and error alike). -/
structure StreamOut where
  chunks : List Chunk
  sessionRemoved : Bool
deriving DecidableEq, Repr

/-- `generate_stream`: approval-style responses are sent as one immediate
`human_approval` chunk; every other response is split into words and
delivered two words at a time by `streamLoop`. -/
def generate_stream (response : String) (flag : Nat → Bool) : StreamOut :=
  if approval_response_check response then
    { chunks := [Chunk.humanApproval response], sessionRemoved := true }
  else
    { chunks := streamLoop (pySplit response) flag 0, sessionRemoved := true }

/-- One entry of the `active_sessions` registry. -/
structure SessionData where
  thread_id : String
  is_active : Bool
  created_at : Nat
  query : String
deriving DecidableEq, Repr

/-- The `/stop` endpoint `stop_generation`: if the session id is registered,
set `is_active` to false and report success; otherwise fail with the 404
`"Session not found or already completed"` and change nothing.  The stored
`is_active` flag is **not** consulted. -/
def stop_generation (reg : List (Nat × SessionData)) (sid : Nat) :
    Bool × List (Nat × SessionData) :=
  match alistLookup reg sid with
  | some sd => (true, alistSet reg sid { sd with is_active := false })
  | none => (false, reg)

/-! ## Ledger operation traces (for the lifecycle invariants) -/

/-- One ledger API call, as dispatched by the endpoints of `src/main.py`. -/
inductive LedgerOp
  | createOp (sql : String)
  | statusOp (id : Nat)
  | approveOp (id : Nat) (actor : String)
  | denyOp (id : Nat) (actor : String)
  | pendingOp
  | cleanupOp
deriving DecidableEq, Repr

/-- A ledger call together with the time it runs at. -/
structure TimedOp where
  t : Nat
  op : LedgerOp
deriving DecidableEq, Repr

/-- State effect of one ledger call. -/
def runOp (m : Manager) (o : TimedOp) : Manager :=
  match o.op with
  | .createOp sql => (create_approval_request m o.t sql).manager
  | .statusOp id => (get_approval_status m o.t id).2
  | .approveOp id actor => (approve_operation m o.t id actor).2
  | .denyOp id actor => (deny_operation m o.t id actor).2
  | .pendingOp => (get_pending_approvals m o.t).2
  | .cleanupOp => (cleanup_expired_approvals m o.t).2

/-- State effect of a sequence of ledger calls. -/
def runTrace : Manager → List TimedOp → Manager
  | m, [] => m
  | m, o :: os => runTrace (runOp m o) os

/-- `decide(id, outcome, actor)`: `approve_operation` when `outcome` is
true, `deny_operation` otherwise. -/
def runDecide (outcome : Bool) (m : Manager) (t : Nat) (id : Nat) (actor : String) :
    DecideOut × Manager :=
  if outcome then approve_operation m t id actor else deny_operation m t id actor

/-- Well-formedness of a ledger state: every stored id was issued by the
fresh-id counter, and ids are unique (Python dict keys; uuid4 never
collides). -/
def MWF (m : Manager) : Prop :=
  (∀ x ∈ m.pending_approvals.map (fun p => p.1), x < m.next_id) ∧
  (m.pending_approvals.map (fun p => p.1)).Nodup

instance (m : Manager) : Decidable (MWF m) := by
  unfold MWF
  infer_instance

/-- The one-step status order actually enforced by the code: PENDING may move
anywhere, APPROVED and DENIED may additionally be overwritten by the lazy
expiry to EXPIRED, and EXPIRED is terminal. -/
def statusLe : ApprovalStatus → ApprovalStatus → Bool
  | .pending, _ => true
  | .approved, .approved => true
  | .approved, .expired => true
  | .denied, .denied => true
  | .denied, .expired => true
  | .expired, .expired => true
  | _, _ => false

/-! ## Concrete fixtures used by the scenario evaluations -/

/-- A pending approval request for `DROP TABLE users`, created at time 0
with the default 300 s timeout (exactly what `create_approval_request`
stores). -/
def fixDropApproval : Approval :=
  { sql_query := "DROP TABLE users"
    operation_type := "DROP"
    table_name := some "users"
    description := "DROP operation on table \x27users\x27"
    status := .pending
    created_at := 0
    expires_at := 300
    approved_at := none
    denied_at := none
    approved_by := none }

/-- A ledger holding just `fixDropApproval` under id 0. -/
def fixManager : Manager :=
  { pending_approvals := [(0, fixDropApproval)], timeout_seconds := 300, next_id := 1 }

/-- The creation of a `DROP TABLE users` request on a fresh manager at
time 0. -/
def fixCreate : CreateOut := create_approval_request initManager 0 "DROP TABLE users"

/-- The ledger after that request has been approved by alice at time 1. -/
def fixApprovedManager : Manager :=
  (approve_operation fixCreate.manager 1 fixCreate.approval_id "alice").2

/-- The persisted thread state after the gate paused on that request:
`approval_id` set, `context.sql_executed` holding the gated statement. -/
def fixThreadState : ConvState :=
  { pending_query := none
    human_approval := none
    approval_pending := some true
    approval_id := some fixCreate.approval_id
    context := some
      { operation_result := "approval prompt"
        sql_executed := some "DROP TABLE users"
        requires_approval := true
        approval_id := some fixCreate.approval_id } }

/-- A thread state whose `pending_context` references approval id 7, which
is unknown to an empty ledger. -/
def fixOrphanState : ConvState :=
  { pending_query := none
    human_approval := none
    approval_pending := some true
    approval_id := some 7
    context := some
      { operation_result := "approval prompt"
        sql_executed := some "DROP TABLE t"
        requires_approval := true
        approval_id := some 7 } }

/-- A ten-word response, streamed as five two-word chunks. -/
def fixResponse : String := "a b c d e f g h i j"

/-- An active-flag schedule where the stop lands right after the post-check
of the second chunk: the first four reads are true, every later read is
false. -/
def fixStopFlag : Nat → Bool := fun k => decide (k < 4)

/-- A session registry holding one already-inactive session under id 5. -/
def fixSessions : List (Nat × SessionData) :=
  [(5, { thread_id := "t1", is_active := false, created_at := 0, query := "hi" })]

/-- An unconditional mass update (no real WHERE restriction). -/
def fixMassUpdate : String := "UPDATE t SET a=0 WHERE 1=1"

/-- A thread state whose candidate statement starts with the safe keyword
SELECT but mentions DROP later in the text. -/
def fixSelectState : ConvState :=
  { pending_query := none
    human_approval := none
    approval_pending := none
    approval_id := none
    context := some
      { operation_result := ""
        sql_executed := some "SELECT * FROM users; DROP TABLE users"
        requires_approval := false
        approval_id := none } }

/-- A thread state whose candidate statement is a single blank. -/
def fixBlankState : ConvState :=
  { pending_query := none
    human_approval := none
    approval_pending := none
    approval_id := none
    context := some
      { operation_result := ""
        sql_executed := some " "
        requires_approval := false
        approval_id := none } }

/-- The six operation kinds named by the specification. -/
def specKinds : List String :=
  ["DROP", "DELETE", "ALTER", "TRUNCATE", "MASS_UPDATE", "UNKNOWN"]

/-- The six operation kinds the code can actually record. -/
def codeKinds : List String :=
  ["DROP", "DELETE", "ALTER", "TRUNCATE", "UPDATE", "UNKNOWN"]

/-! ## Association-list lemmas -/

theorem alistLookup_append_some {α : Type} {l l2 : List (Nat × α)} {k : Nat} {a : α}
    (h : alistLookup l k = some a) : alistLookup (l ++ l2) k = some a := by
  induction l with
  | nil => simp [alistLookup] at h
  | cons p l ih =>
      by_cases hp : p.1 = k
      · simp [alistLookup, hp] at h ⊢
        exact h
      · simp [alistLookup, hp] at h ⊢
        exact ih h

theorem alistLookup_append_none {α : Type} {l : List (Nat × α)} {k : Nat}
    (h : alistLookup l k = none) (l2 : List (Nat × α)) :
    alistLookup (l ++ l2) k = alistLookup l2 k := by
  induction l with
  | nil => simp [alistLookup]
  | cons p l ih =>
      by_cases hp : p.1 = k
      · simp [alistLookup, hp] at h
      · simp [alistLookup, hp] at h ⊢
        exact ih h

theorem alistSet_keys {α : Type} (l : List (Nat × α)) (k : Nat) (a : α) :
    (alistSet l k a).map (fun p => p.1) = l.map (fun p => p.1) := by
  induction l with
  | nil => simp [alistSet]
  | cons p l ih =>
      by_cases hp : p.1 = k
      · simp [alistSet, hp, ih]
      · simp [alistSet, hp, ih]

theorem alistLookup_set_eq {α : Type} {l : List (Nat × α)} {k : Nat} {b : α}
    (h : alistLookup l k = some b) (a : α) :
    alistLookup (alistSet l k a) k = some a := by
  induction l with
  | nil => simp [alistLookup] at h
  | cons p l ih =>
      by_cases hp : p.1 = k
      · simp [alistSet, hp, alistLookup]
      · simp [alistSet, hp, alistLookup] at h ⊢
        exact ih h

theorem alistSet_absent {α : Type} {l : List (Nat × α)} {k : Nat}
    (h : alistLookup l k = none) (a : α) : alistSet l k a = l := by
  induction l with
  | nil => simp [alistSet]
  | cons p l ih =>
      by_cases hp : p.1 = k
      · simp [alistLookup, hp] at h
      · simp [alistLookup, hp] at h
        simp [alistSet, hp, ih h]

theorem alistLookup_set_ne {α : Type} (l : List (Nat × α)) {k j : Nat}
    (h : j ≠ k) (a : α) : alistLookup (alistSet l j a) k = alistLookup l k := by
  induction l with
  | nil => simp [alistSet]
  | cons p l ih =>
      by_cases hp : p.1 = j
      · simp [alistSet, hp, alistLookup, h, ih]
      · simp [alistSet, hp, alistLookup, ih]

theorem alistLookup_filter_none {α : Type} {l : List (Nat × α)} {k : Nat}
    (h : alistLookup l k = none) (q : Nat × α → Bool) :
    alistLookup (l.filter q) k = none := by
  induction l with
  | nil => simp [alistLookup]
  | cons p l ih =>
      by_cases hp : p.1 = k
      · simp [alistLookup, hp] at h
      · simp [alistLookup, hp] at h
        by_cases hq : q p
        · simp [List.filter_cons, hq, alistLookup, hp, ih h]
        · simp [List.filter_cons, hq, ih h]

theorem alistLookup_mem {α : Type} {l : List (Nat × α)} {k : Nat} {a : α}
    (h : alistLookup l k = some a) : (k, a) ∈ l := by
  induction l with
  | nil => simp [alistLookup] at h
  | cons p l ih =>
      by_cases hp : p.1 = k
      · simp [alistLookup, hp] at h
        have hpa : p = (k, a) := Prod.ext hp h
        rw [hpa]
        exact List.mem_cons_self (k, a) l
      · simp [alistLookup, hp] at h
        exact List.mem_cons_of_mem _ (ih h)

theorem alistLookup_filter_nodup {α : Type} {l : List (Nat × α)} {k : Nat} {a : α}
    (hnd : (l.map (fun p => p.1)).Nodup) (h : alistLookup l k = some a)
    (q : Nat × α → Bool) :
    alistLookup (l.filter q) k = if q (k, a) then some a else none := by
  induction l with
  | nil => simp [alistLookup] at h
  | cons p l ih =>
      simp only [List.map_cons, List.nodup_cons] at hnd
      by_cases hp : p.1 = k
      · have h2 : p.2 = a := by simpa [alistLookup, hp] using h
        have hpa : p = (k, a) := Prod.ext hp h2
        have htail : alistLookup l k = none := by
          rcases hlk : alistLookup l k with _ | b
          · rfl
          · exact absurd (by simpa [hp] using List.mem_map_of_mem (fun p => p.1) (alistLookup_mem hlk))
              (by simpa [hp] using hnd.1)
        subst hpa
        by_cases hq : q (k, a)
        · simp [List.filter_cons, hq, alistLookup]
        · simp [List.filter_cons, hq, alistLookup_filter_none htail q]
      · simp [alistLookup, hp] at h
        by_cases hq : q p
        · simp [List.filter_cons, hq, alistLookup, hp]
          exact ih hnd.2 h
        · simp [List.filter_cons, hq]
          exact ih hnd.2 h

/-! ## Status-order lemmas -/

theorem statusLe_refl (s : ApprovalStatus) : statusLe s s = true := by
  cases s <;> rfl

theorem statusLe_expired_right (s : ApprovalStatus) : statusLe s .expired = true := by
  cases s <;> rfl

theorem statusLe_pending_left (s : ApprovalStatus) : statusLe .pending s = true := by
  cases s <;> rfl

theorem statusLe_trans {a b c : ApprovalStatus} (h1 : statusLe a b = true)
    (h2 : statusLe b c = true) : statusLe a c = true := by
  revert h1 h2
  cases a <;> cases b <;> cases c <;> decide

theorem statusLe_nonpending {a b : ApprovalStatus} (ha : a ≠ .pending)
    (h : statusLe a b = true) : b ≠ .pending := by
  revert ha h
  cases a <;> cases b <;> decide

/-! ## Preservation lemmas for the ledger operations -/

theorem mwf_set (m : Manager) (hwf : MWF m) (id : Nat) (a : Approval) :
    MWF { m with pending_approvals := alistSet m.pending_approvals id a } := by
  obtain ⟨hb, hnd⟩ := hwf
  constructor
  · intro x hx
    rw [alistSet_keys] at hx
    exact hb x hx
  · rw [alistSet_keys]
    exact hnd

theorem mwf_filter (m : Manager) (hwf : MWF m) (q : Nat × Approval → Bool) :
    MWF { m with pending_approvals := m.pending_approvals.filter q } := by
  obtain ⟨hb, hnd⟩ := hwf
  have hsub : List.Sublist ((m.pending_approvals.filter q).map (fun p => p.1))
      (m.pending_approvals.map (fun p => p.1)) :=
    (List.filter_sublist m.pending_approvals).map (fun p => p.1)
  constructor
  · intro x hx
    exact hb x (hsub.subset hx)
  · exact hnd.sublist hsub

theorem mwf_runOp (m : Manager) (o : TimedOp) (hwf : MWF m) : MWF (runOp m o) := by
  obtain ⟨t, op⟩ := o
  cases op with
  | createOp sql =>
      obtain ⟨hb, hnd⟩ := hwf
      constructor
      · intro x hx
        simp only [runOp, create_approval_request, List.map_append, List.mem_append] at hx
        simp only [runOp, create_approval_request]
        rcases hx with hx | hx
        · exact Nat.lt_succ_of_lt (hb x hx)
        · simp at hx
          omega
      · simp only [runOp, create_approval_request, List.map_append]
        rw [List.nodup_append]
        refine ⟨hnd, by simp, ?_⟩
        intro x hx hx2
        simp at hx2
        subst hx2
        exact absurd (hb _ hx) (Nat.lt_irrefl _)
  | statusOp id =>
      simp only [runOp]
      rcases hl : alistLookup m.pending_approvals id with _ | a
      · simpa [get_approval_status, hl] using hwf
      · simp only [get_approval_status, hl]
        split
      -- expired: the stored entry is overwritten in place
        · exact mwf_set m hwf id _
        · exact hwf
  | approveOp id actor =>
      simp only [runOp]
      rcases hl : alistLookup m.pending_approvals id with _ | a
      · simpa [approve_operation, hl] using hwf
      · simp only [approve_operation, hl]
        split
        · exact hwf
        · split
          · exact mwf_set m hwf id _
          · exact mwf_set m hwf id _
  | denyOp id actor =>
      simp only [runOp]
      rcases hl : alistLookup m.pending_approvals id with _ | a
      · simpa [deny_operation, hl] using hwf
      · simp only [deny_operation, hl]
        split
        · exact hwf
        · exact mwf_set m hwf id _
  | pendingOp =>
      simpa only [runOp, get_pending_approvals] using mwf_filter m hwf _
  | cleanupOp =>
      simpa only [runOp, cleanup_expired_approvals] using mwf_filter m hwf _

theorem next_id_runOp (m : Manager) (o : TimedOp) :
    m.next_id ≤ (runOp m o).next_id := by
  obtain ⟨t, op⟩ := o
  cases op with
  | createOp sql =>
      simp only [runOp, create_approval_request]
      omega
  | statusOp id =>
      simp only [runOp]
      rcases hl : alistLookup m.pending_approvals id with _ | a
      · simp [get_approval_status, hl]
      · simp only [get_approval_status, hl]
        split <;> simp
  | approveOp id actor =>
      simp only [runOp]
      rcases hl : alistLookup m.pending_approvals id with _ | a
      · simp [approve_operation, hl]
      · simp only [approve_operation, hl]
        split
        · simp
        · split <;> simp
  | denyOp id actor =>
      simp only [runOp]
      rcases hl : alistLookup m.pending_approvals id with _ | a
      · simp [deny_operation, hl]
      · simp only [deny_operation, hl]
        split <;> simp
  | pendingOp => simp [runOp, get_pending_approvals]
  | cleanupOp => simp [runOp, cleanup_expired_approvals]

/-- Effect of one ledger call on the entry stored under a previously-issued
id: an absent entry stays absent, and a present entry either disappears (a
sweep removed it) or moves along `statusLe`. -/
theorem runOp_lookup (m : Manager) (o : TimedOp) (id : Nat) (hwf : MWF m)
    (hid : id < m.next_id) :
    (alistLookup m.pending_approvals id = none →
      alistLookup (runOp m o).pending_approvals id = none) ∧
    (∀ a, alistLookup m.pending_approvals id = some a →
      alistLookup (runOp m o).pending_approvals id = none ∨
      ∃ a', alistLookup (runOp m o).pending_approvals id = some a' ∧
        statusLe a.status a'.status = true) := by
  obtain ⟨t, op⟩ := o
  cases op with
  | createOp sql =>
      constructor
      · intro h
        simp only [runOp, create_approval_request]
        rw [alistLookup_append_none h]
        have : m.next_id ≠ id := by omega
        simp [alistLookup, this]
      · intro a h
        right
        refine ⟨a, ?_, statusLe_refl _⟩
        simp only [runOp, create_approval_request]
        exact alistLookup_append_some h
  | statusOp j =>
      simp only [runOp]
      rcases hl : alistLookup m.pending_approvals j with _ | b
      · simp only [get_approval_status, hl]
        exact ⟨fun h => h, fun a h => Or.inr ⟨a, h, statusLe_refl _⟩⟩
      · simp only [get_approval_status, hl]
        split
        · by_cases hij : j = id
          · subst hij
            constructor
            · intro h
              rw [h] at hl
              exact absurd hl (by simp)
            · intro a h
              rw [h] at hl
              obtain rfl : a = b := by injection hl
              right
              exact ⟨_, alistLookup_set_eq h _, statusLe_expired_right _⟩
          · constructor
            · intro h
              simpa [alistLookup_set_ne _ hij] using h
            · intro a h
              right
              exact ⟨a, by simpa [alistLookup_set_ne _ hij] using h, statusLe_refl _⟩
        · exact ⟨fun h => h, fun a h => Or.inr ⟨a, h, statusLe_refl _⟩⟩
  | approveOp j actor =>
      simp only [runOp]
      rcases hl : alistLookup m.pending_approvals j with _ | b
      · simp only [approve_operation, hl]
        exact ⟨fun h => h, fun a h => Or.inr ⟨a, h, statusLe_refl _⟩⟩
      · simp only [approve_operation, hl]
        split
        · exact ⟨fun h => h, fun a h => Or.inr ⟨a, h, statusLe_refl _⟩⟩
        · split
          all_goals
            by_cases hij : j = id
            · subst hij
              constructor
              · intro h
                rw [h] at hl
                exact absurd hl (by simp)
              · intro a h
                rw [h] at hl
                obtain rfl : a = b := by injection hl
                right
                refine ⟨_, alistLookup_set_eq h _, ?_⟩
                first
                  | exact statusLe_expired_right _
                  | simp_all [statusLe_pending_left]
            · constructor
              · intro h
                simpa [alistLookup_set_ne _ hij] using h
              · intro a h
                right
                exact ⟨a, by simpa [alistLookup_set_ne _ hij] using h, statusLe_refl _⟩
  | denyOp j actor =>
      simp only [runOp]
      rcases hl : alistLookup m.pending_approvals j with _ | b
      · simp only [deny_operation, hl]
        exact ⟨fun h => h, fun a h => Or.inr ⟨a, h, statusLe_refl _⟩⟩
      · simp only [deny_operation, hl]
        split
        · exact ⟨fun h => h, fun a h => Or.inr ⟨a, h, statusLe_refl _⟩⟩
        · by_cases hij : j = id
          · subst hij
            constructor
            · intro h
              rw [h] at hl
              exact absurd hl (by simp)
            · intro a h
              rw [h] at hl
              obtain rfl : a = b := by injection hl
              right
              refine ⟨_, alistLookup_set_eq h _, ?_⟩
              simp_all [statusLe_pending_left]
          · constructor
            · intro h
              simpa [alistLookup_set_ne _ hij] using h
            · intro a h
              right
              exact ⟨a, by simpa [alistLookup_set_ne _ hij] using h, statusLe_refl _⟩
  | pendingOp =>
      simp only [runOp, get_pending_approvals]
      constructor
      · intro h
        exact alistLookup_filter_none h _
      · intro a h
        rw [alistLookup_filter_nodup hwf.2 h]
        split
        · exact Or.inr ⟨a, rfl, statusLe_refl _⟩
        · exact Or.inl rfl
  | cleanupOp =>
      simp only [runOp, cleanup_expired_approvals]
      constructor
      · intro h
        exact alistLookup_filter_none h _
      · intro a h
        rw [alistLookup_filter_nodup hwf.2 h]
        split
        · exact Or.inr ⟨a, rfl, statusLe_refl _⟩
        · exact Or.inl rfl

theorem mwf_runTrace (trace : List TimedOp) :
    ∀ m : Manager, MWF m → MWF (runTrace m trace) := by
  induction trace with
  | nil => intro m hwf; exact hwf
  | cons o os ih => intro m hwf; exact ih (runOp m o) (mwf_runOp m o hwf)

theorem next_id_runTrace (trace : List TimedOp) :
    ∀ m : Manager, m.next_id ≤ (runTrace m trace).next_id := by
  induction trace with
  | nil => intro m; exact Nat.le_refl _
  | cons o os ih =>
      intro m
      exact Nat.le_trans (next_id_runOp m o) (ih (runOp m o))

theorem none_runTrace (trace : List TimedOp) :
    ∀ m : Manager, MWF m → ∀ id : Nat, id < m.next_id →
    alistLookup m.pending_approvals id = none →
    alistLookup (runTrace m trace).pending_approvals id = none := by
  induction trace with
  | nil => intro m _ id _ h; exact h
  | cons o os ih =>
      intro m hwf id hid h
      exact ih (runOp m o) (mwf_runOp m o hwf) id
        (Nat.lt_of_lt_of_le hid (next_id_runOp m o))
        ((runOp_lookup m o id hwf hid).1 h)

/-- Along any trace of ledger calls, a stored request either disappears or
its status moves along `statusLe` (never backwards). -/
theorem statusLe_runTrace (trace : List TimedOp) :
    ∀ m : Manager, MWF m → ∀ id : Nat, ∀ a : Approval,
    alistLookup m.pending_approvals id = some a →
    alistLookup (runTrace m trace).pending_approvals id = none ∨
    ∃ a', alistLookup (runTrace m trace).pending_approvals id = some a' ∧
      statusLe a.status a'.status = true := by
  induction trace with
  | nil => intro m _ id a h; exact Or.inr ⟨a, h, statusLe_refl _⟩
  | cons o os ih =>
      intro m hwf id a h
      have hid : id < m.next_id :=
        hwf.1 id (by simpa using List.mem_map_of_mem (fun p => p.1) (alistLookup_mem h))
      rcases (runOp_lookup m o id hwf hid).2 a h with hnone | ⟨a', ha', hle⟩
      · left
        exact none_runTrace os (runOp m o) (mwf_runOp m o hwf) id
          (Nat.lt_of_lt_of_le hid (next_id_runOp m o)) hnone
      · rcases ih (runOp m o) (mwf_runOp m o hwf) id a' ha' with h1 | ⟨a'', h2, hle2⟩
        · exact Or.inl h1
        · exact Or.inr ⟨a'', h2, statusLe_trans hle hle2⟩

/-! ## Negative matching lemmas for the classifier

These are proved for **every** fuel value, so they apply to the wrapper
`pmatch` regardless of its fuel computation. -/

theorem isPySpace_toLower_self {d : Char} (h : isPySpace d = true) : d.toLower = d := by
  simp only [isPySpace, Bool.or_eq_true, decide_eq_true_eq] at h
  rcases h with ((((h | h) | h) | h) | h) | h <;> subst h <;> decide

theorem lit_none_of_ne {c d : Char} (h : ¬ d.toLower = c.toLower) (ps : List Pat)
    (cs : List Char) : ∀ f, pmatchF f (Pat.lit c :: ps) (d :: cs) = none := by
  intro f
  cases f with
  | zero => rfl
  | succ f => simp [pmatchF, h]

theorem lit_step {c d : Char} (h : d.toLower = c.toLower) (ps : List Pat)
    (cs : List Char) (f : Nat) :
    pmatchF (f + 1) (Pat.lit c :: ps) (d :: cs) = pmatchF f ps cs := by
  simp [pmatchF, h]

theorem lit2_none {c1 c2 d1 d2 : Char} (h1 : d1.toLower = c1.toLower)
    (h2 : ¬ d2.toLower = c2.toLower) (ps : List Pat) (cs : List Char) :
    ∀ f, pmatchF f (Pat.lit c1 :: Pat.lit c2 :: ps) (d1 :: d2 :: cs) = none := by
  intro f
  cases f with
  | zero => rfl
  | succ f =>
      rw [lit_step h1]
      exact lit_none_of_ne h2 ps cs f

theorem lit3_none {c1 c2 c3 d1 d2 d3 : Char} (h1 : d1.toLower = c1.toLower)
    (h2 : d2.toLower = c2.toLower) (h3 : ¬ d3.toLower = c3.toLower)
    (ps : List Pat) (cs : List Char) :
    ∀ f, pmatchF f (Pat.lit c1 :: Pat.lit c2 :: Pat.lit c3 :: ps)
      (d1 :: d2 :: d3 :: cs) = none := by
  intro f
  cases f with
  | zero => rfl
  | succ f =>
      rw [lit_step h1]
      exact lit2_none h2 h3 ps cs f

/-- A pattern `\s*C…` cannot match an input whose first non-whitespace
character fails to match `C`, provided the literal `C` is itself not
whitespace-like. -/
theorem wsStar_lit_none (c : Char) (ps : List Pat)
    (hcl : isPySpace c.toLower = false) :
    ∀ cs : List Char,
      (∀ f, pmatchF f (Pat.lit c :: ps) (cs.dropWhile isPySpace) = none) →
      ∀ f, pmatchF f (Pat.wsStar :: Pat.lit c :: ps) cs = none := by
  intro cs
  induction cs with
  | nil =>
      intro hnone f
      cases f with
      | zero => rfl
      | succ f => simpa using hnone f
  | cons d cs ih =>
      intro hnone f
      cases f with
      | zero => rfl
      | succ f =>
          by_cases hd : isPySpace d = true
          · have h1 : pmatchF f (Pat.wsStar :: Pat.lit c :: ps) cs = none := by
              apply ih
              intro f'
              have hdw : (d :: cs).dropWhile isPySpace = cs.dropWhile isPySpace := by
                simp [List.dropWhile_cons, hd]
              rw [← hdw]
              exact hnone f'
            have h2 : pmatchF f (Pat.lit c :: ps) (d :: cs) = none := by
              refine lit_none_of_ne ?_ ps cs f
              intro he
              have hdl := isPySpace_toLower_self hd
              rw [hdl] at he
              rw [he] at hd
              rw [hcl] at hd
              exact Bool.false_ne_true hd
            simp [pmatchF, hd, h1, h2, Option.orElse]
          · have hdw : (d :: cs).dropWhile isPySpace = d :: cs := by
              simp [List.dropWhile_cons, hd]
            have h2 := hnone f
            rw [hdw] at h2
            simp only [Bool.not_eq_true] at hd
            simpa [pmatchF, hd] using h2

/-- Shortcut: `\s*C…` fails when the first non-whitespace input character
differs from `C` case-insensitively. -/
theorem wsStar_lit_head_ne (c : Char) (ps : List Pat)
    (hcl : isPySpace c.toLower = false) {s : List Char} {k1 : Char} {t1 : List Char}
    (ht : s.dropWhile isPySpace = k1 :: t1) (hne : ¬ k1.toLower = c.toLower) :
    ∀ f, pmatchF f (Pat.wsStar :: Pat.lit c :: ps) s = none :=
  wsStar_lit_none c ps hcl s (fun f => by rw [ht]; exact lit_none_of_ne hne ps t1 f)

/-! ## The leading keyword of a statement -/

/-- The lower-cased leading keyword of a statement: the maximal run of
non-whitespace characters after the leading whitespace. -/
def leadingKeywordChars (s : String) : List Char :=
  ((s.data.dropWhile isPySpace).takeWhile (fun c => !(isPySpace c))).map Char.toLower

theorem takeWhile_map_cons {t : List Char} {c : Char} {r : List Char}
    (h : (t.takeWhile (fun x => !(isPySpace x))).map Char.toLower = c :: r) :
    ∃ k t', t = k :: t' ∧ isPySpace k = false ∧ k.toLower = c ∧
      (t'.takeWhile (fun x => !(isPySpace x))).map Char.toLower = r := by
  cases t with
  | nil => simp at h
  | cons a t' =>
      rw [List.takeWhile_cons] at h
      by_cases hp : isPySpace a = true
      · simp [hp] at h
      · simp only [Bool.not_eq_true] at hp
        simp [hp] at h
        exact ⟨a, t', rfl, hp, h.1, h.2⟩

/-- Core of the safe-prefix claim: a statement whose leading keyword is one
of the safe keywords matches none of the dangerous patterns, at any fuel. -/
theorem dangerous_none_of_keyword (s : String)
    (h : leadingKeywordChars s ∈
      (["select".data, "insert".data, "create".data, "show".data,
        "describe".data] : List (List Char))) :
    ∀ p ∈ dangerous_patterns, pmatch p s.data = none := by
  have hfirst :
      ∀ k1 t1, s.data.dropWhile isPySpace = k1 :: t1 →
      ¬ k1.toLower = 'd' ∧ ¬ k1.toLower = 'a' ∧ ¬ k1.toLower = 't' ∧
        ¬ k1.toLower = 'u' →
      ∀ p ∈ dangerous_patterns, pmatch p s.data = none := by
    intro k1 t1 ht ⟨hd, ha, htr, hu⟩ p hp
    simp only [dangerous_patterns, List.mem_cons, List.not_mem_nil, or_false] at hp
    rcases hp with rfl | rfl | rfl | rfl | rfl <;>
      exact wsStar_lit_head_ne _ _ (by decide) ht
        (by first
              | (intro he; rw [he] at hd; exact hd (by decide))
              | (intro he; rw [he] at ha; exact ha (by decide))
              | (intro he; rw [he] at htr; exact htr (by decide))
              | (intro he; rw [he] at hu; exact hu (by decide))) _
  unfold leadingKeywordChars at h
  simp only [List.mem_cons, List.not_mem_nil, or_false] at h
  rcases h with h | h | h | h | h
  · -- select
    obtain ⟨k1, t1, ht, _, hk1, _⟩ := takeWhile_map_cons (h.trans (by rfl))
    exact hfirst k1 t1 ht (by rw [hk1]; refine ⟨by decide, by decide, by decide, by decide⟩)
  · -- insert
    obtain ⟨k1, t1, ht, _, hk1, _⟩ := takeWhile_map_cons (h.trans (by rfl))
    exact hfirst k1 t1 ht (by rw [hk1]; refine ⟨by decide, by decide, by decide, by decide⟩)
  · -- create
    obtain ⟨k1, t1, ht, _, hk1, _⟩ := takeWhile_map_cons (h.trans (by rfl))
    exact hfirst k1 t1 ht (by rw [hk1]; refine ⟨by decide, by decide, by decide, by decide⟩)
  · -- show
    obtain ⟨k1, t1, ht, _, hk1, _⟩ := takeWhile_map_cons (h.trans (by rfl))
    exact hfirst k1 t1 ht (by rw [hk1]; refine ⟨by decide, by decide, by decide, by decide⟩)
  · -- describe: the first character is a 'd', so DROP and DELETE need the
    -- second and third characters to discriminate
    obtain ⟨k1, t1, ht1, _, hk1, h2⟩ := takeWhile_map_cons (h.trans (by rfl))
    obtain ⟨k2, t2, ht2, _, hk2, h3⟩ := takeWhile_map_cons h2
    obtain ⟨k3, t3, ht3, _, hk3, _⟩ := takeWhile_map_cons h3
    have ht : s.data.dropWhile isPySpace = k1 :: k2 :: k3 :: t3 := by
      rw [ht1, ht2, ht3]
    intro p hp
    simp only [dangerous_patterns, List.mem_cons, List.not_mem_nil, or_false] at hp
    rcases hp with rfl | rfl | rfl | rfl | rfl
    · -- DROP: 'e' vs 'R'
      unfold pmatch
      exact wsStar_lit_none _ _ (by decide) _
        (fun f => by
          rw [ht]
          exact lit2_none (by rw [hk1]; decide)
            (by rw [hk2]; decide) _ _ f) _
    · -- DELETE FROM: 's' vs 'L'
      unfold pmatch
      exact wsStar_lit_none _ _ (by decide) _
        (fun f => by
          rw [ht]
          exact lit3_none (by rw [hk1]; decide) (by rw [hk2]; decide)
            (by rw [hk3]; decide) _ _ f) _
    · exact wsStar_lit_head_ne _ _ (by decide) ht
        (by rw [hk1]; decide) _
    · exact wsStar_lit_head_ne _ _ (by decide) ht
        (by rw [hk1]; decide) _
    · exact wsStar_lit_head_ne _ _ (by decide) ht
        (by rw [hk1]; decide) _

/-- A statement with a safe leading keyword is classified not dangerous. -/
theorem is_dangerous_false_of_keyword (s : String)
    (h : leadingKeywordChars s ∈
      (["select".data, "insert".data, "create".data, "show".data,
        "describe".data] : List (List Char))) :
    is_dangerous_operation s = false := by
  have hd := dangerous_none_of_keyword s h
  unfold is_dangerous_operation
  split
  · rfl
  · split
    · rfl
    · split
      · rfl
      · rw [List.any_eq_false]
        intro p hp
        simp [hd p hp]

/-! ## Streaming-loop lemmas -/

theorem countText_cons_text (ws : List String) (l : List Chunk) :
    countText (Chunk.text ws :: l) = countText l + 1 := by
  simp [countText, Chunk.isText, List.filter_cons]

theorem countText_cons_stopped (l : List Chunk) :
    countText (Chunk.stopped :: l) = countText l := by
  simp [countText, Chunk.isText, List.filter_cons]

/-- The i-th text chunk of a delivery loop is emitted only after its
pre-emission check read the active flag as true (reads are numbered from
`k`, two per chunk). -/
theorem streamLoop_text_flag_aux :
    ∀ (n : Nat) (ws : List String), ws.length ≤ n → ∀ (flag : Nat → Bool) (k i : Nat),
      i < countText (streamLoop ws flag k) → flag (k + 2 * i) = true := by
  intro n
  induction n with
  | zero =>
      intro ws h flag k i hi
      have hws : ws = [] := List.eq_nil_of_length_eq_zero (Nat.le_zero.mp h)
      subst hws
      simp [streamLoop, countText] at hi
  | succ n ih =>
      intro ws h flag k i hi
      match ws with
      | [] => simp [streamLoop, countText] at hi
      | [w] =>
          cases h0 : flag k with
          | false => simp [streamLoop, h0, countText, Chunk.isText] at hi
          | true =>
              have hi0 : i = 0 := by
                cases h1 : flag (k + 1) with
                | false =>
                    simp [streamLoop, h0, h1, countText, Chunk.isText,
                      List.filter_cons] at hi
                    omega
                | true =>
                    simp [streamLoop, h0, h1, countText, Chunk.isText,
                      List.filter_cons] at hi
                    omega
              subst hi0
              simpa using h0
      | w1 :: w2 :: ws' =>
          cases h0 : flag k with
          | false => simp [streamLoop, h0, countText, Chunk.isText] at hi
          | true =>
              cases h1 : flag (k + 1) with
              | false =>
                  have hi0 : i = 0 := by
                    simp [streamLoop, h0, h1, countText, Chunk.isText,
                      List.filter_cons] at hi
                    omega
                  subst hi0
                  simpa using h0
              | true =>
                  have hloop : streamLoop (w1 :: w2 :: ws') flag k =
                      Chunk.text [w1, w2] :: streamLoop ws' flag (k + 2) := by
                    simp [streamLoop, h0, h1]
                  rw [hloop, countText_cons_text] at hi
                  match i with
                  | 0 => simpa using h0
                  | Nat.succ j =>
                      have hj : j < countText (streamLoop ws' flag (k + 2)) := by
                        omega
                      have hlen : ws'.length ≤ n := by
                        simp only [List.length_cons] at h
                        omega
                      have hres := ih ws' hlen flag (k + 2) j hj
                      have harith : k + 2 * (j + 1) = (k + 2) + 2 * j := by ring
                      rw [harith]
                      exact hres

/-! ## Workflow-node helper lemmas -/

theorem node_no_create_of_not_dangerous (st : ConvState) (m : Manager) (now : Nat)
    (h : is_dangerous_operation (pendingQueryOf st) = false) :
    (human_approval_node st m now).created = false ∧
    (human_approval_node st m now).manager = m := by
  unfold human_approval_node
  by_cases hq : (pendingQueryOf st).isEmpty
  · simp [hq]
  · simp [hq, h]

theorem pystrip_all_space {l : List Char} (h : ∀ c ∈ l, isPySpace c = true) :
    pystrip l = [] := by
  have hdrop : l.dropWhile isPySpace = [] := by
    rw [List.dropWhile_eq_nil_iff]
    simpa using h
  simp [pystrip, hdrop]

/-! ## Decide-call helper lemmas -/

theorem approve_success_conditions (m : Manager) (t id : Nat) (actor : String)
    (hs : (approve_operation m t id actor).1.success = true) :
    ∃ b, alistLookup m.pending_approvals id = some b ∧
      b.status = ApprovalStatus.pending ∧ is_expired b t = false := by
  unfold approve_operation at hs
  rcases hl : alistLookup m.pending_approvals id with _ | b
  · rw [hl] at hs
    simp at hs
  · rw [hl] at hs
    dsimp only at hs
    split at hs
    next hb => simp at hs
    next hb =>
      split at hs
      next => simp at hs
      next hexp => exact ⟨b, rfl, by simpa using hb, by simpa using hexp⟩

theorem deny_success_conditions (m : Manager) (t id : Nat) (actor : String)
    (hs : (deny_operation m t id actor).1.success = true) :
    ∃ b, alistLookup m.pending_approvals id = some b ∧
      b.status = ApprovalStatus.pending := by
  unfold deny_operation at hs
  rcases hl : alistLookup m.pending_approvals id with _ | b
  · rw [hl] at hs
    simp at hs
  · rw [hl] at hs
    dsimp only at hs
    split at hs
    next hb => simp at hs
    next hb => exact ⟨b, rfl, by simpa using hb⟩

theorem approve_success_eq (m : Manager) (t id : Nat) (actor : String) (b : Approval)
    (hl : alistLookup m.pending_approvals id = some b)
    (hp : b.status = ApprovalStatus.pending) (hexp : is_expired b t = false) :
    approve_operation m t id actor =
      ({ success := true, error := none },
       { m with pending_approvals :=
           alistSet m.pending_approvals id { b with
             status := ApprovalStatus.approved, approved_at := some t,
             approved_by := some actor } }) := by
  unfold approve_operation
  rw [hl]
  dsimp only
  split
  next h => exact absurd hp h
  next h =>
    split
    next h2 =>
        rw [hexp] at h2
        cases h2
    next h2 => rfl

theorem deny_success_eq (m : Manager) (t id : Nat) (actor : String) (b : Approval)
    (hl : alistLookup m.pending_approvals id = some b)
    (hp : b.status = ApprovalStatus.pending) :
    deny_operation m t id actor =
      ({ success := true, error := none },
       { m with pending_approvals :=
           alistSet m.pending_approvals id { b with
             status := ApprovalStatus.denied, denied_at := some t,
             approved_by := some actor } }) := by
  unfold deny_operation
  rw [hl]
  dsimp only
  split
  next h => exact absurd hp h
  next h => rfl

theorem decide_notFoundResult (outcome : Bool) (m : Manager) (t id : Nat) (actor : String)
    (h : alistLookup m.pending_approvals id = none) :
    (runDecide outcome m t id actor).1 =
      { success := false, error := some notFoundMsg } := by
  cases outcome <;> simp [runDecide, approve_operation, deny_operation, h]

theorem decide_notPendingResult (outcome : Bool) (m : Manager) (t id : Nat) (actor : String)
    (a : Approval) (h : alistLookup m.pending_approvals id = some a)
    (hst : a.status ≠ ApprovalStatus.pending) :
    (runDecide outcome m t id actor).1 =
      { success := false, error := some (notPendingMsg (statusValue a.status)) } := by
  cases outcome <;> simp [runDecide, approve_operation, deny_operation, h, hst]

/-! ## Claim theorems -/

/-- C1: the claim (and spec) say that after an APPROVED decision is
consumed, the gated statement executes exactly once and a duplicate
`__APPROVED__` resume does not invoke the Executor again.  The sentinel
branch of `DatabaseAgent.chat` violates this: it executes
`context.sql_executed` and returns without clearing `approval_id`,
`context.sql_executed` or the ledger entry, so the identical second resume
finds the approval still APPROVED and executes the same statement a second
time.  Evaluated at a concrete approved `DROP TABLE users` thread: both
resume calls invoke the Executor on the statement. -/
theorem C1_duplicate_resume_reexecutes :
    chat_step "__APPROVED__" fixThreadState fixApprovedManager 2 true =
      some (chat_resume fixThreadState fixApprovedManager 2 true) ∧
    (chat_resume fixThreadState fixApprovedManager 2 true).executed =
      ["DROP TABLE users"] ∧
    (chat_resume fixThreadState fixApprovedManager 2 true).st = fixThreadState ∧
    (chat_resume (chat_resume fixThreadState fixApprovedManager 2 true).st
        (chat_resume fixThreadState fixApprovedManager 2 true).manager 3 true).executed =
      ["DROP TABLE users"] := by
  decide

/-- C2 counterexample: the claim says every decide call after the first
success fails with an error reporting that the request is **not pending**.
After the approved request expires and a sweep (`cleanup_expired_approvals`)
removes it, a further decide call fails with `Approval request not found`
instead. -/
theorem C2_counterexample :
    (approve_operation fixManager 10 0 "alice").1.success = true ∧
    (approve_operation
        (cleanup_expired_approvals (approve_operation fixManager 10 0 "alice").2 400).2
        401 0 "bob").1 =
      { success := false, error := some notFoundMsg } := by
  decide

/-- C2 amended: for every approval id, at most one decide call
(`approve_operation` or `deny_operation`) ever returns success; every
subsequent decide call on the same id, after any further sequence of ledger
calls, returns `success = false`, with a not-pending error while the entry
is still in the ledger or the not-found error after a sweep removed it. -/
theorem C2_amended (m : Manager) (hwf : MWF m) (outcome : Bool) (t id : Nat)
    (actor : String)
    (hs : (runDecide outcome m t id actor).1.success = true)
    (trace : List TimedOp) (outcome' : Bool) (t' : Nat) (actor' : String) :
    (runDecide outcome' (runTrace (runDecide outcome m t id actor).2 trace)
        t' id actor').1.success = false ∧
    (runDecide outcome' (runTrace (runDecide outcome m t id actor).2 trace)
        t' id actor').1.error ∈
      [some notFoundMsg, some (notPendingMsg "approved"),
       some (notPendingMsg "denied"), some (notPendingMsg "expired")] := by
  have hm1 : (runDecide outcome m t id actor).2 =
      runOp m ⟨t, if outcome then LedgerOp.approveOp id actor
                  else LedgerOp.denyOp id actor⟩ := by
    cases outcome <;> rfl
  have hex : ∃ a, alistLookup (runDecide outcome m t id actor).2.pending_approvals
      id = some a ∧ a.status ≠ ApprovalStatus.pending := by
    cases outcome
    · obtain ⟨b, hl, hp⟩ := deny_success_conditions m t id actor hs
      rw [show runDecide false m t id actor = deny_operation m t id actor from rfl,
        deny_success_eq m t id actor b hl hp]
      exact ⟨_, alistLookup_set_eq hl _, by simp⟩
    · obtain ⟨b, hl, hp, hexp⟩ := approve_success_conditions m t id actor hs
      rw [show runDecide true m t id actor = approve_operation m t id actor from rfl,
        approve_success_eq m t id actor b hl hp hexp]
      exact ⟨_, alistLookup_set_eq hl _, by simp⟩
  obtain ⟨a, ha, hast⟩ := hex
  have hwf1 : MWF (runDecide outcome m t id actor).2 := by
    rw [hm1]
    exact mwf_runOp m _ hwf
  rcases statusLe_runTrace trace (runDecide outcome m t id actor).2 hwf1 id a ha
    with hnone | ⟨a', ha', hle⟩
  · rw [decide_notFoundResult outcome' _ t' id actor' hnone]
    exact ⟨rfl, by simp⟩
  · have ha'st : a'.status ≠ ApprovalStatus.pending := statusLe_nonpending hast hle
    rw [decide_notPendingResult outcome' _ t' id actor' a' ha' ha'st]
    refine ⟨rfl, ?_⟩
    cases h : a'.status
    · exact absurd h ha'st
    · simp [statusValue]
    · simp [statusValue]
    · simp [statusValue]

/-- C2 witness: instantiating the amended claim at the concrete ledger
holding the `DROP TABLE users` request, approved by alice at time 10 and
then decided again by bob at time 11. -/
theorem C2_witness :
    (runDecide false (runTrace (runDecide true fixManager 10 0 "alice").2 [])
        11 0 "bob").1.success = false ∧
    (runDecide false (runTrace (runDecide true fixManager 10 0 "alice").2 [])
        11 0 "bob").1.error ∈
      [some notFoundMsg, some (notPendingMsg "approved"),
       some (notPendingMsg "denied"), some (notPendingMsg "expired")] :=
  C2_amended fixManager (by decide) true 10 0 "alice" (by decide) [] false 11 "bob"

/-- C3: the claim says a decide call issued after `expires_at` fails with an
Expired error and never sets the status to APPROVED or DENIED.  The lazy
expiry and the `approve_operation` half hold, but `deny_operation` performs
no expiry check: at time 301 (past the 300 s expiry) it succeeds on the
still-PENDING request and records status DENIED — contradicting the claim
and the ledger contract of the spec. -/
theorem C3_deny_ignores_expiry :
    (get_approval_status fixManager 301 0).1.status = some ApprovalStatus.expired ∧
    (approve_operation fixManager 301 0 "alice").1 =
      { success := false, error := some expiredMsg } ∧
    (deny_operation fixManager 301 0 "bob").1.success = true ∧
    (alistLookup (deny_operation fixManager 301 0 "bob").2.pending_approvals 0).map
        Approval.status = some ApprovalStatus.denied := by
  decide

/-- C4 counterexample: the claim says a request that reached APPROVED never
afterwards changes status.  In the code, `get_approval_status` overwrites
the stored status with EXPIRED whenever `now > expires_at`, regardless of
the current status: the request approved at time 10 is reported and stored
as EXPIRED at time 1000. -/
theorem C4_counterexample :
    (alistLookup (approve_operation fixManager 10 0 "alice").2.pending_approvals 0).map
        Approval.status = some ApprovalStatus.approved ∧
    (get_approval_status (approve_operation fixManager 10 0 "alice").2 1000 0).1.status =
      some ApprovalStatus.expired ∧
    (alistLookup (get_approval_status (approve_operation fixManager 10 0 "alice").2
        1000 0).2.pending_approvals 0).map Approval.status =
      some ApprovalStatus.expired := by
  decide

/-- C4 amended: over every sequence of ledger operations, a stored request's
status moves only forward along the order `statusLe`: PENDING may become
APPROVED, DENIED or EXPIRED, APPROVED and DENIED may later be overwritten to
EXPIRED by the lazy expiry check, and EXPIRED is terminal; no status ever
returns to PENDING and APPROVED/DENIED never swap. -/
theorem C4_amended (m : Manager) (hwf : MWF m) (id : Nat) (a : Approval)
    (trace : List TimedOp)
    (h1 : alistLookup m.pending_approvals id = some a) :
    ∀ a', alistLookup (runTrace m trace).pending_approvals id = some a' →
      statusLe a.status a'.status = true := by
  intro a' h2
  rcases statusLe_runTrace trace m hwf id a h1 with hn | ⟨a'', h3, hle⟩
  · rw [hn] at h2
    cases h2
  · rw [h3] at h2
    injection h2 with h4
    rw [← h4]
    exact hle

/-- C4 witness: the pending `DROP TABLE users` request approved by alice at
time 10 moves PENDING → APPROVED, which `statusLe` allows. -/
theorem C4_witness :
    statusLe fixDropApproval.status ApprovalStatus.approved = true :=
  C4_amended fixManager (by decide) 0 fixDropApproval
    [⟨10, LedgerOp.approveOp 0 "alice"⟩] (by decide)
    { fixDropApproval with status := ApprovalStatus.approved,
                           approved_at := some 10, approved_by := some "alice" }
    (by decide)

/-- C5: a statement whose leading keyword (after optional leading
whitespace, case-insensitively) is SELECT, INSERT, CREATE, SHOW or DESCRIBE
is classified not dangerous by `is_dangerous_operation` — even if dangerous
keywords appear later in the text, because the dangerous patterns are all
anchored prefixes — and the `_human_approval` workflow node never creates an
`ApprovalRequest` for it. -/
theorem C5_safe_keyword (s : String)
    (h : leadingKeywordChars s ∈
      (["select".data, "insert".data, "create".data, "show".data,
        "describe".data] : List (List Char))) :
    is_dangerous_operation s = false ∧
    ∀ st : ConvState, ∀ m : Manager, ∀ now : Nat, pendingQueryOf st = s →
      (human_approval_node st m now).created = false ∧
      (human_approval_node st m now).manager = m := by
  have hfalse := is_dangerous_false_of_keyword s h
  refine ⟨hfalse, ?_⟩
  intro st m now hq
  exact node_no_create_of_not_dangerous st m now (by rw [hq]; exact hfalse)

/-- C5 witness: `SELECT * FROM users; DROP TABLE users` — a safe leading
keyword with a dangerous keyword later in the text — is not dangerous and
the gate node creates no approval request for it. -/
theorem C5_witness :
    is_dangerous_operation "SELECT * FROM users; DROP TABLE users" = false ∧
    (human_approval_node fixSelectState initManager 0).created = false :=
  ⟨(C5_safe_keyword "SELECT * FROM users; DROP TABLE users" (by decide)).1,
   ((C5_safe_keyword "SELECT * FROM users; DROP TABLE users" (by decide)).2
     fixSelectState initManager 0 rfl).1⟩

/-- C6: in every streaming delivery, the i-th text chunk is emitted only
after a pre-emission read of the active flag came back true (reads are also
performed immediately after each chunk), so once the flag goes false no
further text chunk is emitted; the `finally` block always removes the
session from the registry; and in the concrete 5-chunk scenario with the
stop landing after 2 chunks, exactly 2 text chunks are delivered followed by
a single `stopped` marker. -/
theorem C6_stream_stop :
    (∀ (ws : List String) (flag : Nat → Bool) (k i : Nat),
        i < countText (streamLoop ws flag k) → flag (k + 2 * i) = true) ∧
    (∀ (r : String) (flag : Nat → Bool),
        (generate_stream r flag).sessionRemoved = true) ∧
    (generate_stream fixResponse fixStopFlag).chunks =
      [Chunk.text ["a", "b"], Chunk.text ["c", "d"], Chunk.stopped] ∧
    countText (generate_stream fixResponse fixStopFlag).chunks = 2 := by
  refine ⟨?_, ?_, by decide, by decide⟩
  · intro ws flag k i hi
    exact streamLoop_text_flag_aux ws.length ws (Nat.le_refl _) flag k i hi
  · intro r flag
    unfold generate_stream
    split <;> rfl

/-- C6 witness: in a two-word stream under the concrete stop schedule, the
first text chunk implies the first flag read was true. -/
theorem C6_witness :
    0 < countText (streamLoop ["a", "b"] fixStopFlag 0) ∧
    fixStopFlag (0 + 2 * 0) = true :=
  ⟨by decide, C6_stream_stop.1 ["a", "b"] fixStopFlag 0 0 (by decide)⟩

/-- C7 counterexample: the claim says `stop` fails with NotFound for a
session that is registered but already inactive.  The endpoint only checks
registration: stopping the already-inactive session 5 succeeds. -/
theorem C7_counterexample :
    (alistLookup fixSessions 5).map SessionData.is_active = some false ∧
    (stop_generation fixSessions 5).1 = true := by
  decide

/-- C7 amended: `stop_generation` succeeds exactly when the session id is
currently registered, regardless of the stored active flag (stopping an
already-inactive session succeeds idempotently); an unknown or
already-removed id fails with NotFound and leaves the registry unchanged. -/
theorem C7_amended (reg : List (Nat × SessionData)) (sid : Nat) :
    ((stop_generation reg sid).1 = true ↔ alistLookup reg sid ≠ none) ∧
    (alistLookup reg sid = none → stop_generation reg sid = (false, reg)) := by
  unfold stop_generation
  rcases h : alistLookup reg sid with _ | sd
  · simp
  · simp

/-- C7 witness: stopping an unknown session id on an empty registry fails
and changes nothing. -/
theorem C7_witness :
    stop_generation ([] : List (Nat × SessionData)) 3 = (false, []) :=
  (C7_amended [] 3).2 rfl

/-- C8 counterexample: the claim says the recorded operation kind lies in
{DROP, DELETE, ALTER, TRUNCATE, MASS_UPDATE, UNKNOWN} and that an
unconditional mass update is recorded as MASS_UPDATE.  The statement
`UPDATE t SET a=0 WHERE 1=1` is flagged dangerous by the mass-update
pattern, but `get_operation_info` classifies it by its leading keyword as
kind `UPDATE`, which is not in the claimed kind set. -/
theorem C8_counterexample :
    is_dangerous_operation fixMassUpdate = true ∧
    (create_approval_request initManager 0 fixMassUpdate).approval_request.operation_type =
      "UPDATE" ∧
    "UPDATE" ∉ specKinds := by
  decide

/-- C8 amended: the operation kind recorded at creation time is always one
of {DROP, DELETE, ALTER, TRUNCATE, UPDATE, UNKNOWN}; in particular the
unconditional mass update `UPDATE t SET a=0 WHERE 1=1` is recorded with
kind UPDATE (the classifier has no distinct MASS_UPDATE kind). -/
theorem C8_amended (m : Manager) (now : Nat) (sql : String) :
    (create_approval_request m now sql).approval_request.operation_type ∈ codeKinds ∧
    (create_approval_request m now fixMassUpdate).approval_request.operation_type =
      "UPDATE" := by
  constructor
  · show (get_operation_info sql).operation_type ∈ codeKinds
    unfold get_operation_info
    dsimp only
    split
    · decide
    · split
      · decide
      · split
        · decide
        · split
          · decide
          · split
            · decide
            · decide
  · exact (by decide : (get_operation_info fixMassUpdate).operation_type = "UPDATE")

/-- C9 counterexample: the claim says a pending context naming an unknown
approval id is treated as denied (decision flag set false, gate resolved).
In the code the not-found reply carries no status, so `_handle_human_decision`
falls into the still-pending branch: it routes to response but leaves the
state untouched — the decision flag is not set to false and the gate is
still pending. -/
theorem C9_counterexample :
    (handle_human_decision fixOrphanState initManager 0).1 = "response" ∧
    (handle_human_decision fixOrphanState initManager 0).2.1 = fixOrphanState ∧
    (handle_human_decision fixOrphanState initManager 0).2.1.human_approval ≠ some false ∧
    (handle_human_decision fixOrphanState initManager 0).2.1.approval_pending = some true := by
  decide

/-- C9 amended: when the thread's `approval_id` is unknown to the ledger,
the gate-resolution step routes to RESPOND without invoking the Executor,
but treats the gate like a still-pending approval: the thread state and the
ledger are returned completely unchanged (the decision flag is not set to
denied and the pending context is not cleared). -/
theorem C9_amended (st : ConvState) (m : Manager) (now aid : Nat)
    (h1 : st.approval_id = some aid)
    (h2 : alistLookup m.pending_approvals aid = none) :
    handle_human_decision st m now = ("response", st, m) := by
  unfold handle_human_decision
  rw [h1]
  simp [get_approval_status, h2]

/-- C9 witness: the orphan thread state (approval id 7, empty ledger)
resolves to the response route with state and ledger unchanged. -/
theorem C9_witness :
    handle_human_decision fixOrphanState initManager 3 =
      ("response", fixOrphanState, initManager) :=
  C9_amended fixOrphanState initManager 3 7 rfl rfl

/-- C10: `is_dangerous_operation` returns false for the empty string and for
every whitespace-only string (the `not sql_query or not sql_query.strip()`
guard), so such a candidate statement never triggers creation of an
`ApprovalRequest` in the `_human_approval` node and is routed as safe. -/
theorem C10_blank_safe (s : String) (h : ∀ c ∈ s.data, isPySpace c = true) :
    is_dangerous_operation s = false ∧
    ∀ st : ConvState, ∀ m : Manager, ∀ now : Nat, pendingQueryOf st = s →
      (human_approval_node st m now).created = false ∧
      (human_approval_node st m now).manager = m := by
  have hfalse : is_dangerous_operation s = false := by
    unfold is_dangerous_operation
    by_cases he : s.data.isEmpty
    · simp [he]
    · have hstrip : (pystrip s.data).isEmpty = true := by
        rw [pystrip_all_space h]
        rfl
      simp [he, hstrip]
  refine ⟨hfalse, ?_⟩
  intro st m now hq
  exact node_no_create_of_not_dangerous st m now (by rw [hq]; exact hfalse)

/-- C10 witness: a single blank is not dangerous and the gate node creates
no approval request for it. -/
theorem C10_witness :
    is_dangerous_operation " " = false ∧
    (human_approval_node fixBlankState initManager 0).created = false :=
  ⟨(C10_blank_safe " " (by decide)).1,
   ((C10_blank_safe " " (by decide)).2 fixBlankState initManager 0 rfl).1⟩
